import Mathlib

/-!
# rp2040-fastboot-rebooter

A shallow embedding of the two variants of the USB-host program
(`fastboot_rebooter.c` and `fastboot_rebooter.old.c`): the callback
`descriptor_complete_cb` that walks a configuration descriptor looking for
a bulk OUT endpoint, `send_fastboot_reboot` that submits the fixed command
buffer, and the attach / detach callbacks.

The program has no state of its own besides the descriptor buffer that the
host stack fills.  Every callback is therefore a function from its argument
to the list of things it does, in program order (`Event`): loads from the
descriptor buffer, `printf` calls, calls into the host stack and LED calls.
The host stack's answers are given by a `HostStack` record of functions.

The scan loops need not terminate (a record of declared length 0 never moves
the cursor), so they take a fuel argument counting loop iterations; `none`
means that the loop is still running after that many iterations.
-/

namespace FastbootRebooter

/-! ## Constants and helpers of the host stack -/

/-- Modelled from the spec: `TUSB_DESC_INTERFACE` is declared in the TinyUSB
header `tusb.h`, which this repository includes but does not contain; 4 is
the USB descriptor type code of an interface descriptor. -/
def TUSB_DESC_INTERFACE : Nat := 4

/-- Modelled from the spec: `TUSB_DESC_ENDPOINT` is declared in `tusb.h`,
absent from the repository; 5 is the USB descriptor type code of an endpoint
descriptor. -/
def TUSB_DESC_ENDPOINT : Nat := 5

/-- Modelled from the spec: `TUSB_XFER_BULK` is declared in `tusb.h`, absent
from the repository; 2 is the transfer-type code of a bulk endpoint
(bmAttributes bits 1..0). -/
def TUSB_XFER_BULK : Nat := 2

/-- Modelled from the spec: `TUSB_XFER_INTERRUPT` is declared in `tusb.h`,
absent from the repository; 3 is the transfer-type code of an
interrupt endpoint (bmAttributes bits 1..0). -/
def TUSB_XFER_INTERRUPT : Nat := 3

/-- Modelled from the spec: `TUSB_DIR_IN_MASK` is declared in `tusb.h`,
absent from the repository; bit 7 of an endpoint address is the direction
bit, set for IN. -/
def TUSB_DIR_IN_MASK : Nat := 0x80

/-- Modelled from the spec: `XFER_RESULT_SUCCESS` is declared in `tusb.h`,
absent from the repository; it is the first enumerator of `xfer_result_t`. -/
def XFER_RESULT_SUCCESS : Nat := 0

/-- Modelled from the spec: `XFER_RESULT_FAILED` is declared in `tusb.h`,
absent from the repository; it is the second enumerator of `xfer_result_t`. -/
def XFER_RESULT_FAILED : Nat := 1

/-- The byte `desc[i]` of the memory that starts at `xfer->buffer`.  The list
holds the bytes of the static array the buffer points to; the array has
static storage and so starts out zeroed, and offsets past the end of the list
read as 0. -/
def byteAt (buf : List Nat) (i : Nat) : Nat := buf.getD i 0

/-- Modelled from the spec: `tu_desc_type` is an inline helper of `tusb.h`,
absent from the repository; it yields the type tag, the second byte of the
record at `p`. -/
def tu_desc_type (buf : List Nat) (p : Nat) : Nat := byteAt buf (p + 1)

/-- Modelled from the spec: `tu_desc_next` is an inline helper of `tusb.h`,
absent from the repository; it advances the cursor by the declared length,
the first byte of the record at `p`. -/
def tu_desc_next (buf : List Nat) (p : Nat) : Nat := p + byteAt buf p

/-- Modelled from the spec: `tu_edpt_dir` is an inline helper of `tusb.h`,
absent from the repository; it yields 1 (IN) when the direction bit of
the endpoint address is set and 0 (OUT) otherwise. -/
def tu_edpt_dir (addr : Nat) : Nat := if addr &&& TUSB_DIR_IN_MASK ≠ 0 then 1 else 0

/-- Modelled from the spec: `wTotalLength` is a field of
`tusb_desc_configuration_t`, declared in `tusb.h` and absent from the
repository; it is the little-endian 16-bit total length at bytes 2 and 3 of
the configuration descriptor. -/
def wTotalLength (buf : List Nat) : Nat := byteAt buf 2 + 256 * byteAt buf 3

/-- Modelled from the spec: `bmAttributes.xfer` is a bit-field of
`tusb_desc_endpoint_t`, declared in `tusb.h` and absent from the repository;
it is bits 1..0 of the attributes byte, the fourth byte of the record. -/
def bmAttributes_xfer (buf : List Nat) (p : Nat) : Nat := byteAt buf (p + 3) % 4

/-! ## Data model -/

/-- The completion callbacks a transfer can name. -/
inductive CompleteCb
  | transfer_complete_cb
  | descriptor_complete_cb
deriving DecidableEq, Repr

/-- The fields of `tuh_xfer_t` that the program sets or reads.  `buffer` is
the content of the memory the buffer pointer refers to. -/
structure tuh_xfer_t where
  daddr : Nat
  ep_addr : Nat
  result : Nat
  actual_len : Nat
  buffer : List Nat
  buflen : Nat
  complete_cb : CompleteCb
  user_data : Nat
deriving DecidableEq, Repr

/-- The `printf` calls of the two variants, by what they report. -/
inductive Msg
  | deviceAttached
  | getConfigurationFailed
  | mountFailed
  | deviceRemoved
  | descriptorData
  | descriptorByte
  | newline
  | interfaceFound
  | bulkOutFound
  | bulkOutOpened
  | openFailed
  | sending
  | notFound
  | commandSent
  | commandSendFailed
  | transferDump
  | transferCompleted
  | transferFailed
deriving DecidableEq, Repr

/-- What a callback does, one entry per action, in program order. -/
inductive Event
  /-- A load of the descriptor buffer byte at this offset. -/
  | read (off : Nat)
  | printf (m : Msg)
  /-- The call `tuh_descriptor_get_configuration(dev_addr, 0, desc, sizeof(desc), ..)`. -/
  | tuh_descriptor_get_configuration (daddr : Nat) (capacity : Nat)
  /-- The call `tuh_edpt_open(dev_addr, desc)`, `desc` being the buffer plus `off`. -/
  | tuh_edpt_open (daddr : Nat) (off : Nat)
  /-- The call `tuh_edpt_xfer(&xfer)`. -/
  | tuh_edpt_xfer (x : tuh_xfer_t)
  | gpio_put (pin : Nat) (value : Nat)
  | sleep_ms (ms : Nat)
deriving DecidableEq, Repr

/-- The answers of the host stack to the calls of the program. -/
structure HostStack where
  tuh_descriptor_get_configuration : Nat → Bool
  tuh_edpt_open : Nat → Nat → Bool
  tuh_edpt_xfer : tuh_xfer_t → Bool

/-- The endpoint opens among the events: device address and record offset. -/
def opened (evs : List Event) : List (Nat × Nat) :=
  evs.filterMap fun e =>
    match e with
    | .tuh_edpt_open d off => some (d, off)
    | _ => none

/-- The transfers submitted among the events. -/
def submitted (evs : List Event) : List tuh_xfer_t :=
  evs.filterMap fun e =>
    match e with
    | .tuh_edpt_xfer x => some x
    | _ => none

/-- The buffer offsets loaded among the events. -/
def readOffsets (evs : List Event) : List Nat :=
  evs.filterMap fun e =>
    match e with
    | .read off => some off
    | _ => none

/-! ## `fastboot_rebooter.c` -/

/-- The array `cmd[]` initialised from `REBOOT_CMD`, the literal
`"reboot\x00"`: the six letters, the NUL written in the literal and the NUL
that ends every string literal. -/
def REBOOT_CMD : List Nat := [114, 101, 98, 111, 111, 116, 0, 0]

/-- `REBOOT_CMD_LEN`, that is `sizeof(REBOOT_CMD) - 1`. -/
def REBOOT_CMD_LEN : Nat := REBOOT_CMD.length - 1

/-- The transfer structure that `send_fastboot_reboot` fills in. -/
def reboot_xfer (dev_addr ep_addr : Nat) : tuh_xfer_t where
  daddr := dev_addr
  ep_addr := ep_addr
  result := 0
  actual_len := 0
  buffer := REBOOT_CMD
  buflen := REBOOT_CMD_LEN
  complete_cb := .transfer_complete_cb
  user_data := 0

/-- `send_fastboot_reboot` of `fastboot_rebooter.c`. -/
def send_fastboot_reboot (hs : HostStack) (dev_addr ep_addr : Nat) : List Event :=
  let xfer := reboot_xfer dev_addr ep_addr
  if hs.tuh_edpt_xfer xfer then
    [.tuh_edpt_xfer xfer, .printf .commandSent]
  else
    [.tuh_edpt_xfer xfer, .printf .commandSendFailed, .printf .transferDump]

/-- How the scan loop of `descriptor_complete_cb` is left. -/
inductive LoopExit
  /-- By its condition or by `break`, with this value of `ep_addr`. -/
  | done (ep_addr : Nat)
  /-- By the `return` after a failed endpoint open. -/
  | ret
deriving DecidableEq, Repr

/-- The test of the inner `if`:
`(endpoint_address & TUSB_DIR_IN_MASK) == 0 && (attributes & TUSB_XFER_BULK) != 0`. -/
def isBulkOutTest (endpoint_address attributes : Nat) : Bool :=
  decide (endpoint_address &&& TUSB_DIR_IN_MASK = 0) && decide (attributes &&& TUSB_XFER_BULK ≠ 0)

/-- The `while` loop of `descriptor_complete_cb` in `fastboot_rebooter.c`,
started with the cursor `desc` (an offset into the buffer).  `ep_addr` is 0
at the start of every iteration: the only iteration that assigns it leaves
the loop. -/
def scanLoop (hs : HostStack) (buf : List Nat) (actual_len dev_addr : Nat) :
    Nat → Nat → Option (List Event × LoopExit)
  | 0, _ => none
  | fuel + 1, desc =>
    if desc < actual_len then
      if byteAt buf (desc + 1) = TUSB_DESC_INTERFACE then
        (scanLoop hs buf actual_len dev_addr fuel (desc + byteAt buf desc)).map fun r =>
          ([.read (desc + 1), .read (desc + 5), .read (desc + 6), .read (desc + 7),
            .printf .interfaceFound, .read desc] ++ r.1, r.2)
      else if byteAt buf (desc + 1) = TUSB_DESC_ENDPOINT then
        let endpoint_address := byteAt buf (desc + 2)
        let attributes := byteAt buf (desc + 3)
        if isBulkOutTest endpoint_address attributes then
          if hs.tuh_edpt_open dev_addr desc then
            some ([.read (desc + 1), .read (desc + 1), .read (desc + 2), .read (desc + 3),
                   .printf .bulkOutFound, .tuh_edpt_open dev_addr desc,
                   .printf .bulkOutOpened], .done endpoint_address)
          else
            some ([.read (desc + 1), .read (desc + 1), .read (desc + 2), .read (desc + 3),
                   .printf .bulkOutFound, .tuh_edpt_open dev_addr desc,
                   .printf .openFailed], .ret)
        else
          (scanLoop hs buf actual_len dev_addr fuel (desc + byteAt buf desc)).map fun r =>
            ([.read (desc + 1), .read (desc + 1), .read (desc + 2), .read (desc + 3),
              .read desc] ++ r.1, r.2)
      else
        (scanLoop hs buf actual_len dev_addr fuel (desc + byteAt buf desc)).map fun r =>
          ([.read (desc + 1), .read (desc + 1), .read desc] ++ r.1, r.2)
    else
      some ([], .done 0)

/-- The loop that prints the received bytes at the start of
`descriptor_complete_cb`. -/
def dumpDescriptor (actual_len : Nat) : List Event :=
  [.printf .descriptorData]
    ++ (List.range actual_len).flatMap (fun i => [.read i, .printf .descriptorByte])
    ++ [.printf .newline]

/-- `descriptor_complete_cb` of `fastboot_rebooter.c`. -/
def descriptor_complete_cb (hs : HostStack) (fuel : Nat) (xfer : tuh_xfer_t) :
    Option (List Event) :=
  match scanLoop hs xfer.buffer xfer.actual_len xfer.daddr fuel 0 with
  | none => none
  | some (evs, .ret) => some (dumpDescriptor xfer.actual_len ++ evs)
  | some (evs, .done ep_addr) =>
    if ep_addr ≠ 0 then
      some (dumpDescriptor xfer.actual_len ++ evs ++ [.printf .sending]
        ++ send_fastboot_reboot hs xfer.daddr ep_addr)
    else
      some (dumpDescriptor xfer.actual_len ++ evs ++ [.printf .notFound])

/-- `tuh_mount_cb` of `fastboot_rebooter.c`; the static array has 512 bytes. -/
def tuh_mount_cb (hs : HostStack) (dev_addr : Nat) : List Event :=
  if hs.tuh_descriptor_get_configuration dev_addr then
    [.printf .deviceAttached, .tuh_descriptor_get_configuration dev_addr 512]
  else
    [.printf .deviceAttached, .tuh_descriptor_get_configuration dev_addr 512,
     .printf .getConfigurationFailed]

/-- `tuh_mount_failed_cb` of `fastboot_rebooter.c`. -/
def tuh_mount_failed_cb (_dev_addr : Nat) : List Event := [.printf .mountFailed]

/-- `tuh_umount_cb` of `fastboot_rebooter.c`. -/
def tuh_umount_cb (_dev_addr : Nat) : List Event := [.printf .deviceRemoved]

/-- `transfer_complete_cb` of `fastboot_rebooter.c`. -/
def transfer_complete_cb (xfer : tuh_xfer_t) : List Event :=
  if xfer.result ≠ XFER_RESULT_SUCCESS then
    [.printf .transferCompleted, .printf .transferFailed]
  else
    [.printf .transferCompleted]

/-- The callbacks the host stack invokes from `tuh_task`. -/
inductive Callback
  | mount (dev_addr : Nat)
  | mount_failed (dev_addr : Nat)
  | umount (dev_addr : Nat)
  | descriptor_complete (xfer : tuh_xfer_t)
  | transfer_complete (xfer : tuh_xfer_t)
deriving DecidableEq, Repr

/-- One callback invocation of `fastboot_rebooter.c`. -/
def dispatch (hs : HostStack) (fuel : Nat) : Callback → Option (List Event)
  | .mount d => some (tuh_mount_cb hs d)
  | .mount_failed d => some (tuh_mount_failed_cb d)
  | .umount d => some (tuh_umount_cb d)
  | .descriptor_complete x => descriptor_complete_cb hs fuel x
  | .transfer_complete x => some (transfer_complete_cb x)

/-- A sequence of callback invocations, one after the other (the callbacks
never run concurrently); the events of all of them in order. -/
def run (hs : HostStack) (fuel : Nat) : List Callback → Option (List Event)
  | [] => some []
  | cb :: rest =>
    match dispatch hs fuel cb with
    | none => none
    | some evs => (run hs fuel rest).map fun more => evs ++ more

/-! ## `fastboot_rebooter.old.c` -/

/-- The array `cmd[]` initialised from `FASTBOOT_CMD`, the same literal
`"reboot\x00"`. -/
def FASTBOOT_CMD : List Nat := [114, 101, 98, 111, 111, 116, 0, 0]

/-- The transfer structure that `send_fastboot_reboot` of the old variant
fills in; `buflen` is `sizeof(cmd)`. -/
def reboot_xfer_old (dev_addr ep_addr : Nat) : tuh_xfer_t where
  daddr := dev_addr
  ep_addr := ep_addr
  result := 0
  actual_len := 0
  buffer := FASTBOOT_CMD
  buflen := FASTBOOT_CMD.length
  complete_cb := .transfer_complete_cb
  user_data := 0

/-- `set_led_fail` of `fastboot_rebooter.old.c`; `ready_LED_pin` is 25 and
`busy_LED_pin` is 14. -/
def set_led_fail : List Event :=
  [.gpio_put 25 0, .gpio_put 14 0, .sleep_ms 3000]

/-- `set_led_error` of `fastboot_rebooter.old.c`. -/
def set_led_error : List Event :=
  [.gpio_put 25 1, .gpio_put 14 1, .sleep_ms 3000]

/-- `send_fastboot_reboot` of `fastboot_rebooter.old.c`. -/
def send_fastboot_reboot_old (hs : HostStack) (dev_addr ep_addr : Nat) : List Event :=
  let xfer := reboot_xfer_old dev_addr ep_addr
  if hs.tuh_edpt_xfer xfer then
    [.tuh_edpt_xfer xfer, .printf .commandSent]
  else
    [.tuh_edpt_xfer xfer, .printf .commandSendFailed, .printf .transferDump] ++ set_led_fail

/-- The `while` loop of `descriptor_complete_cb` in `fastboot_rebooter.old.c`,
started with the cursor `p_desc`; it yields the value of `ep_addr` after the
loop.  The transfer type is tested first and the address is loaded only when
the type is bulk. -/
def scanLoop_old (buf : List Nat) (p_end : Nat) : Nat → Nat → Option (List Event × Nat)
  | 0, _ => none
  | fuel + 1, p_desc =>
    if p_desc < p_end then
      if TUSB_DESC_ENDPOINT = tu_desc_type buf p_desc then
        if TUSB_XFER_BULK = bmAttributes_xfer buf p_desc then
          if tu_edpt_dir (byteAt buf (p_desc + 2)) = 0 then
            some ([.read (p_desc + 1), .read (p_desc + 3), .read (p_desc + 2),
                   .read (p_desc + 2), .printf .bulkOutFound], byteAt buf (p_desc + 2))
          else
            (scanLoop_old buf p_end fuel (tu_desc_next buf p_desc)).map fun r =>
              ([.read (p_desc + 1), .read (p_desc + 3), .read (p_desc + 2),
                .read p_desc] ++ r.1, r.2)
        else
          (scanLoop_old buf p_end fuel (tu_desc_next buf p_desc)).map fun r =>
            ([.read (p_desc + 1), .read (p_desc + 3), .read p_desc] ++ r.1, r.2)
      else
        (scanLoop_old buf p_end fuel (tu_desc_next buf p_desc)).map fun r =>
          ([.read (p_desc + 1), .read p_desc] ++ r.1, r.2)
    else
      some ([], 0)

/-- `descriptor_complete_cb` of `fastboot_rebooter.old.c`. -/
def descriptor_complete_cb_old (hs : HostStack) (fuel : Nat) (xfer : tuh_xfer_t) :
    Option (List Event) :=
  if xfer.result = XFER_RESULT_SUCCESS then
    match scanLoop_old xfer.buffer (wTotalLength xfer.buffer) fuel 0 with
    | none => none
    | some (evs, ep_addr) =>
      if ep_addr ≠ 0 then
        some ([.read 2, .read 3] ++ evs ++ send_fastboot_reboot_old hs xfer.daddr ep_addr)
      else
        some ([.read 2, .read 3] ++ evs ++ [.printf .notFound] ++ set_led_error)
  else
    some ([.printf .getConfigurationFailed] ++ set_led_error)

/-! ## Notions used to state the properties -/

/-- The record at cursor `c` passes the tests of the scan loop of
`fastboot_rebooter.c`: its type byte is the endpoint type and address
and attributes pass `isBulkOutTest`. -/
def accepts (buf : List Nat) (c : Nat) : Bool :=
  decide (byteAt buf (c + 1) = TUSB_DESC_ENDPOINT)
    && isBulkOutTest (byteAt buf (c + 2)) (byteAt buf (c + 3))

/-- The cursor of the scan loop of `fastboot_rebooter.c` at the start of its
iteration number `n` (counted from 0) when it starts at `c`, provided the
`n` iterations before were entered and accepted no record; `none` when the
loop was left before. -/
def cursorFrom (buf : List Nat) (len : Nat) : Nat → Nat → Option Nat
  | 0, c => some c
  | n + 1, c =>
    if c < len ∧ accepts buf c = false then cursorFrom buf len n (c + byteAt buf c) else none

/-- A bulk OUT endpoint record in the sense of the specification: the type
byte is the endpoint type, bits 1..0 of the attributes are 2 and bit 7 of the
address is clear. -/
def isBulkOutRecord (buf : List Nat) (c : Nat) : Bool :=
  decide (byteAt buf (c + 1) = TUSB_DESC_ENDPOINT)
    && decide (byteAt buf (c + 3) % 4 = TUSB_XFER_BULK)
    && decide (byteAt buf (c + 2) &&& TUSB_DIR_IN_MASK = 0)

/-- An interrupt OUT endpoint record: the type byte is the endpoint type,
bits 1..0 of the attributes are 3 and bit 7 of the address is clear. -/
def isInterruptOutRecord (buf : List Nat) (c : Nat) : Bool :=
  decide (byteAt buf (c + 1) = TUSB_DESC_ENDPOINT)
    && decide (byteAt buf (c + 3) % 4 = TUSB_XFER_INTERRUPT)
    && decide (byteAt buf (c + 2) &&& TUSB_DIR_IN_MASK = 0)

/-- The records from cursor `c` on tile the bytes up to `len` exactly, each
with a declared length of at least 2, and each satisfies `ok`; `fuel` bounds
the number of records. -/
def tilesWith (ok : Nat → Bool) (buf : List Nat) (len : Nat) : Nat → Nat → Bool
  | 0, c => decide (c = len)
  | fuel + 1, c =>
    decide (c = len) ||
      (decide (2 ≤ byteAt buf c) && decide (c + byteAt buf c ≤ len) && ok c
        && tilesWith ok buf len fuel (c + byteAt buf c))

/-- A well-formed descriptor buffer: every record has a declared length of at
least 2 and the records exactly tile the received length. -/
def wellFormed (buf : List Nat) (len : Nat) : Bool :=
  tilesWith (fun _ => true) buf len len 0

/-- The fields that the scan loop of `fastboot_rebooter.c` loads from the
record at `c` lie inside the record: an interface record has at least 8
bytes and an endpoint record at least 4. -/
def fieldsFit (buf : List Nat) (c : Nat) : Bool :=
  decide (byteAt buf (c + 1) = TUSB_DESC_INTERFACE → 8 ≤ byteAt buf c)
    && decide (byteAt buf (c + 1) = TUSB_DESC_ENDPOINT → 4 ≤ byteAt buf c)

/-- The events of an iteration of the scan loop that accepts no record: loads
and the interface report. -/
def isSkipEvent : Event → Bool
  | .read _ => true
  | .printf .interfaceFound => true
  | _ => false

/-- The events other than the log line of `tuh_umount_cb`. -/
def withoutDetachLog (evs : List Event) : List Event :=
  evs.filter fun e => decide (e ≠ .printf .deviceRemoved)

/-- A transfer with its buffer length left out. -/
def withoutBuflen (x : tuh_xfer_t) : tuh_xfer_t := { x with buflen := 0 }

/-! ## Concrete inputs -/

/-- A host stack that accepts every request. -/
def hostAccepting : HostStack where
  tuh_descriptor_get_configuration := fun _ => true
  tuh_edpt_open := fun _ _ => true
  tuh_edpt_xfer := fun _ => true

/-- A host stack that refuses to open endpoints. -/
def hostRefusingOpen : HostStack where
  tuh_descriptor_get_configuration := fun _ => true
  tuh_edpt_open := fun _ _ => false
  tuh_edpt_xfer := fun _ => true

/-- The completed descriptor transfer of `tuh_mount_cb`: the received bytes
at the start of the zeroed static array, of 512 bytes in
`fastboot_rebooter.c`.  (The array of the old variant has 256 bytes; where
a transfer built here is given to the old variant, every load is below 25.) -/
def descriptorXfer (daddr result : Nat) (bytes : List Nat) : tuh_xfer_t where
  daddr := daddr
  ep_addr := 0
  result := result
  actual_len := bytes.length
  buffer := bytes ++ List.replicate (512 - bytes.length) 0
  buflen := 512
  complete_cb := .descriptor_complete_cb
  user_data := 0

/-- A configuration with one interface and a bulk OUT endpoint 0x01. -/
def bulkOutConfig : List Nat :=
  [9, 2, 25, 0, 1, 1, 0, 0x80, 50,
   9, 4, 0, 0, 1, 0xFF, 0x42, 3, 0,
   7, 5, 0x01, 2, 64, 0, 0]

/-- A configuration with one interface and an interrupt OUT endpoint 0x01. -/
def interruptOutConfig : List Nat :=
  [9, 2, 25, 0, 1, 1, 0, 0x80, 50,
   9, 4, 0, 0, 1, 3, 0, 0, 0,
   7, 5, 0x01, 3, 8, 0, 10]

/-- A configuration with an interrupt OUT endpoint 0x01 followed by a bulk
OUT endpoint 0x02. -/
def interruptThenBulkConfig : List Nat :=
  [9, 2, 32, 0, 1, 1, 0, 0x80, 50,
   9, 4, 0, 0, 2, 0xFF, 0x42, 3, 0,
   7, 5, 0x01, 3, 8, 0, 10,
   7, 5, 0x02, 2, 64, 0, 0]

/-- The first 10 bytes of a configuration whose header declares 18. -/
def truncatedConfig : List Nat := [9, 2, 18, 0, 1, 1, 0, 0x80, 50, 9]

/-- A configuration header followed by a record of declared length 0. -/
def zeroLengthConfig : List Nat := [9, 2, 11, 0, 1, 1, 0, 0x80, 50, 0, 0]

/-- A record of declared length 1 followed by a bulk OUT endpoint 0x01. -/
def lengthOneConfig : List Nat := [1, 7, 5, 0x01, 2, 64, 0, 0]

/-- A configuration whose bulk OUT endpoint has address 0x00. -/
def addressZeroConfig : List Nat :=
  [9, 2, 25, 0, 1, 1, 0, 0x80, 50,
   9, 4, 0, 0, 1, 0xFF, 0x42, 3, 0,
   7, 5, 0x00, 2, 64, 0, 0]

/-! ## Properties -/

theorem submitted_send_fastboot_reboot (hs : HostStack) (dev_addr ep_addr : Nat) :
    submitted (send_fastboot_reboot hs dev_addr ep_addr) = [reboot_xfer dev_addr ep_addr] := by
  by_cases h : hs.tuh_edpt_xfer (reboot_xfer dev_addr ep_addr) = true <;>
    simp [send_fastboot_reboot, h, submitted]

theorem opened_send_fastboot_reboot (hs : HostStack) (dev_addr ep_addr : Nat) :
    opened (send_fastboot_reboot hs dev_addr ep_addr) = [] := by
  by_cases h : hs.tuh_edpt_xfer (reboot_xfer dev_addr ep_addr) = true <;>
    simp [send_fastboot_reboot, h, opened]

theorem readOffsets_send_fastboot_reboot (hs : HostStack) (dev_addr ep_addr : Nat) :
    readOffsets (send_fastboot_reboot hs dev_addr ep_addr) = [] := by
  by_cases h : hs.tuh_edpt_xfer (reboot_xfer dev_addr ep_addr) = true <;>
    simp [send_fastboot_reboot, h, readOffsets]

theorem opened_of_skip : ∀ evs : List Event, evs.all isSkipEvent = true → opened evs = []
  | [], _ => rfl
  | e :: evs, h => by
    simp only [List.all_cons, Bool.and_eq_true] at h
    have ih := opened_of_skip evs h.2
    cases e <;> simp_all [opened, isSkipEvent]

theorem submitted_of_skip : ∀ evs : List Event, evs.all isSkipEvent = true → submitted evs = []
  | [], _ => rfl
  | e :: evs, h => by
    simp only [List.all_cons, Bool.and_eq_true] at h
    have ih := submitted_of_skip evs h.2
    cases e <;> simp_all [submitted, isSkipEvent]

theorem accepts_type {buf : List Nat} {c : Nat} (h : accepts buf c = true) :
    byteAt buf (c + 1) = TUSB_DESC_ENDPOINT
      ∧ isBulkOutTest (byteAt buf (c + 2)) (byteAt buf (c + 3)) = true := by
  simpa [accepts] using h

theorem interface_ne_endpoint : TUSB_DESC_ENDPOINT ≠ TUSB_DESC_INTERFACE := by decide

/-- The scan loop started at `c0` with more fuel than the iterations it takes
to reach an accepted record at `c` skips the records before, then opens the
record at `c`. -/
theorem scanLoop_accept (hs : HostStack) (buf : List Nat) (len d : Nat) :
    ∀ n c0 c, cursorFrom buf len n c0 = some c → c < len → accepts buf c = true →
      ∀ fuel, n < fuel →
        ∃ pre, pre.all isSkipEvent = true ∧
          scanLoop hs buf len d fuel c0 =
            some (pre ++ [.read (c + 1), .read (c + 1), .read (c + 2), .read (c + 3),
                .printf .bulkOutFound, .tuh_edpt_open d c,
                .printf (if hs.tuh_edpt_open d c then .bulkOutOpened else .openFailed)],
              if hs.tuh_edpt_open d c then .done (byteAt buf (c + 2)) else .ret) := by
  intro n
  induction n with
  | zero =>
    intro c0 c hcur hlt hacc fuel hfuel
    simp only [cursorFrom, Option.some.injEq] at hcur
    subst hcur
    obtain ⟨f, rfl⟩ : ∃ f, fuel = f + 1 := ⟨fuel - 1, by omega⟩
    obtain ⟨hty, htest⟩ := accepts_type hacc
    refine ⟨[], rfl, ?_⟩
    have hne : ¬ byteAt buf (c0 + 1) = TUSB_DESC_INTERFACE := by
      rw [hty]; exact interface_ne_endpoint
    by_cases hopen : hs.tuh_edpt_open d c0 = true
    · simp [scanLoop, hlt, hty, htest, hopen, interface_ne_endpoint]
    · simp [scanLoop, hlt, hty, htest, hopen, interface_ne_endpoint]
  | succ n ih =>
    intro c0 c hcur hlt hacc fuel hfuel
    obtain ⟨f, rfl⟩ : ∃ f, fuel = f + 1 := ⟨fuel - 1, by omega⟩
    simp only [cursorFrom] at hcur
    split at hcur
    · rename_i hc0
      obtain ⟨hc0lt, hc0acc⟩ := hc0
      obtain ⟨pre, hpre, hrun⟩ := ih _ c hcur hlt hacc f (by omega)
      by_cases hi : byteAt buf (c0 + 1) = TUSB_DESC_INTERFACE
      · refine ⟨[.read (c0 + 1), .read (c0 + 5), .read (c0 + 6), .read (c0 + 7),
          .printf .interfaceFound, .read c0] ++ pre, ?_, ?_⟩
        · simpa [isSkipEvent] using hpre
        · simp [scanLoop, hc0lt, hi, hrun]
      · by_cases he : byteAt buf (c0 + 1) = TUSB_DESC_ENDPOINT
        · have htest : isBulkOutTest (byteAt buf (c0 + 2)) (byteAt buf (c0 + 3)) = false := by
            simpa [accepts, he] using hc0acc
          refine ⟨[.read (c0 + 1), .read (c0 + 1), .read (c0 + 2), .read (c0 + 3),
            .read c0] ++ pre, ?_, ?_⟩
          · simpa [isSkipEvent] using hpre
          · simp [scanLoop, hc0lt, he, htest, hrun, interface_ne_endpoint]
        · refine ⟨[.read (c0 + 1), .read (c0 + 1), .read c0] ++ pre, ?_, ?_⟩
          · simpa [isSkipEvent] using hpre
          · simp [scanLoop, hc0lt, hi, he, hrun]
    · exact Option.noConfusion hcur

/-- The scan loop started at `c0` with more fuel than the iterations it takes
the cursor to reach or pass the received length accepts no record and ends
with `ep_addr` 0. -/
theorem scanLoop_exhaust (hs : HostStack) (buf : List Nat) (len d : Nat) :
    ∀ n c0 c, cursorFrom buf len n c0 = some c → len ≤ c →
      ∀ fuel, n < fuel →
        ∃ pre, pre.all isSkipEvent = true ∧
          scanLoop hs buf len d fuel c0 = some (pre, .done 0) := by
  intro n
  induction n with
  | zero =>
    intro c0 c hcur hge fuel hfuel
    simp only [cursorFrom, Option.some.injEq] at hcur
    subst hcur
    obtain ⟨f, rfl⟩ : ∃ f, fuel = f + 1 := ⟨fuel - 1, by omega⟩
    refine ⟨[], rfl, ?_⟩
    have hnlt : ¬ c0 < len := by omega
    simp [scanLoop, hnlt]
  | succ n ih =>
    intro c0 c hcur hge fuel hfuel
    obtain ⟨f, rfl⟩ : ∃ f, fuel = f + 1 := ⟨fuel - 1, by omega⟩
    simp only [cursorFrom] at hcur
    split at hcur
    · rename_i hc0
      obtain ⟨hc0lt, hc0acc⟩ := hc0
      obtain ⟨pre, hpre, hrun⟩ := ih _ c hcur hge f (by omega)
      by_cases hi : byteAt buf (c0 + 1) = TUSB_DESC_INTERFACE
      · refine ⟨[.read (c0 + 1), .read (c0 + 5), .read (c0 + 6), .read (c0 + 7),
          .printf .interfaceFound, .read c0] ++ pre, ?_, ?_⟩
        · simpa [isSkipEvent] using hpre
        · simp [scanLoop, hc0lt, hi, hrun]
      · by_cases he : byteAt buf (c0 + 1) = TUSB_DESC_ENDPOINT
        · have htest : isBulkOutTest (byteAt buf (c0 + 2)) (byteAt buf (c0 + 3)) = false := by
            simpa [accepts, he] using hc0acc
          refine ⟨[.read (c0 + 1), .read (c0 + 1), .read (c0 + 2), .read (c0 + 3),
            .read c0] ++ pre, ?_, ?_⟩
          · simpa [isSkipEvent] using hpre
          · simp [scanLoop, hc0lt, he, htest, hrun, interface_ne_endpoint]
        · refine ⟨[.read (c0 + 1), .read (c0 + 1), .read c0] ++ pre, ?_, ?_⟩
          · simpa [isSkipEvent] using hpre
          · simp [scanLoop, hc0lt, hi, he, hrun]
    · exact Option.noConfusion hcur

theorem mem_opened {d c : Nat} : ∀ {evs : List Event},
    (d, c) ∈ opened evs ↔ Event.tuh_edpt_open d c ∈ evs
  | [] => by simp [opened]
  | e :: evs => by
    have ih := @mem_opened d c evs
    unfold opened at ih ⊢
    cases e <;> simp [List.filterMap_cons, ih]

theorem mem_submitted {x : tuh_xfer_t} : ∀ {evs : List Event},
    x ∈ submitted evs ↔ Event.tuh_edpt_xfer x ∈ evs
  | [] => by simp [submitted]
  | e :: evs => by
    have ih := @mem_submitted x evs
    unfold submitted at ih ⊢
    cases e <;> simp [List.filterMap_cons, ih]

theorem mem_readOffsets {off : Nat} : ∀ {evs : List Event},
    off ∈ readOffsets evs ↔ Event.read off ∈ evs
  | [] => by simp [readOffsets]
  | e :: evs => by
    have ih := @mem_readOffsets off evs
    unfold readOffsets at ih ⊢
    cases e <;> simp [List.filterMap_cons, ih]

theorem opened_append (a b : List Event) : opened (a ++ b) = opened a ++ opened b := by
  simp [opened, List.filterMap_append]

theorem submitted_append (a b : List Event) :
    submitted (a ++ b) = submitted a ++ submitted b := by
  simp [submitted, List.filterMap_append]

theorem readOffsets_append (a b : List Event) :
    readOffsets (a ++ b) = readOffsets a ++ readOffsets b := by
  simp [readOffsets, List.filterMap_append]

theorem mem_dumpDescriptor {n : Nat} {e : Event} (h : e ∈ dumpDescriptor n) :
    (∃ i, i < n ∧ e = .read i) ∨ (∃ m, e = .printf m ∧ m ≠ .notFound) := by
  simp only [dumpDescriptor, List.mem_append, List.mem_flatMap,
    List.mem_range, List.mem_cons, List.not_mem_nil, or_false] at h
  rcases h with (h | ⟨i, hi, h⟩) | h
  · exact Or.inr ⟨_, h, by decide⟩
  · rcases h with h | h
    · exact Or.inl ⟨i, hi, h⟩
    · exact Or.inr ⟨_, h, by decide⟩
  · exact Or.inr ⟨_, h, by decide⟩

theorem opened_dumpDescriptor (n : Nat) : opened (dumpDescriptor n) = [] := by
  rw [List.eq_nil_iff_forall_not_mem]
  rintro ⟨d, c⟩ h
  rcases mem_dumpDescriptor (mem_opened.1 h) with ⟨i, _, hi⟩ | ⟨m, hm, _⟩
  · exact Event.noConfusion hi
  · exact Event.noConfusion hm

theorem submitted_dumpDescriptor (n : Nat) : submitted (dumpDescriptor n) = [] := by
  rw [List.eq_nil_iff_forall_not_mem]
  intro x h
  rcases mem_dumpDescriptor (mem_submitted.1 h) with ⟨i, _, hi⟩ | ⟨m, hm, _⟩
  · exact Event.noConfusion hi
  · exact Event.noConfusion hm

theorem readOffsets_dumpDescriptor {n off : Nat} (h : off ∈ readOffsets (dumpDescriptor n)) :
    off < n := by
  rcases mem_dumpDescriptor (mem_readOffsets.1 h) with ⟨i, hlt, hi⟩ | ⟨m, hm, _⟩
  · cases hi; exact hlt
  · exact Event.noConfusion hm

/-- A record of declared length 0 that is not accepted holds the cursor: the
scan loop started on it is still running after any number of iterations. -/
theorem scanLoop_stuck_here (hs : HostStack) (buf : List Nat) (len d c : Nat)
    (hlt : c < len) (hacc : accepts buf c = false) (hzero : byteAt buf c = 0) :
    ∀ fuel, scanLoop hs buf len d fuel c = none := by
  intro fuel
  induction fuel with
  | zero => rfl
  | succ f ih =>
    by_cases hi : byteAt buf (c + 1) = TUSB_DESC_INTERFACE
    · simp [scanLoop, hlt, hi, hzero, ih]
    · by_cases he : byteAt buf (c + 1) = TUSB_DESC_ENDPOINT
      · have htest : isBulkOutTest (byteAt buf (c + 2)) (byteAt buf (c + 3)) = false := by
          simpa [accepts, he] using hacc
        simp [scanLoop, hlt, he, htest, hzero, ih, interface_ne_endpoint]
      · simp [scanLoop, hlt, hi, he, hzero, ih]

/-- Once the cursor reaches a record of declared length 0 that is not
accepted, the scan loop never ends. -/
theorem scanLoop_stuck (hs : HostStack) (buf : List Nat) (len d : Nat) :
    ∀ n c0 c, cursorFrom buf len n c0 = some c → c < len → accepts buf c = false →
      byteAt buf c = 0 → ∀ fuel, scanLoop hs buf len d fuel c0 = none := by
  intro n
  induction n with
  | zero =>
    intro c0 c hcur hlt hacc hzero fuel
    simp only [cursorFrom, Option.some.injEq] at hcur
    subst hcur
    exact scanLoop_stuck_here hs buf len d c0 hlt hacc hzero fuel
  | succ n ih =>
    intro c0 c hcur hlt hacc hzero fuel
    simp only [cursorFrom] at hcur
    split at hcur
    · rename_i hc0
      obtain ⟨hc0lt, hc0acc⟩ := hc0
      cases fuel with
      | zero => rfl
      | succ f =>
        have hrun := ih _ c hcur hlt hacc hzero f
        by_cases hi : byteAt buf (c0 + 1) = TUSB_DESC_INTERFACE
        · simp [scanLoop, hc0lt, hi, hrun]
        · by_cases he : byteAt buf (c0 + 1) = TUSB_DESC_ENDPOINT
          · have htest :
                isBulkOutTest (byteAt buf (c0 + 2)) (byteAt buf (c0 + 3)) = false := by
              simpa [accepts, he] using hc0acc
            simp [scanLoop, hc0lt, he, htest, hrun, interface_ne_endpoint]
          · simp [scanLoop, hc0lt, hi, he, hrun]
    · exact Option.noConfusion hcur

/-- When every record that the cursor reaches and does not accept has a
nonzero declared length, the cursor reaches an accepted record or the
received length within `len - c0` iterations. -/
theorem cursorFrom_ends (buf : List Nat) (len : Nat) :
    ∀ k c0, len - c0 ≤ k →
      (∀ n c, cursorFrom buf len n c0 = some c → c < len → accepts buf c = false →
        byteAt buf c ≠ 0) →
      ∃ n c, n ≤ k ∧ cursorFrom buf len n c0 = some c
        ∧ (len ≤ c ∨ (c < len ∧ accepts buf c = true)) := by
  intro k
  induction k with
  | zero =>
    intro c0 hk _
    exact ⟨0, c0, Nat.le_refl _, rfl, Or.inl (by omega)⟩
  | succ k ih =>
    intro c0 hk hpos
    by_cases hge : len ≤ c0
    · exact ⟨0, c0, Nat.zero_le _, rfl, Or.inl hge⟩
    · have hlt : c0 < len := by omega
      by_cases hacc : accepts buf c0 = true
      · exact ⟨0, c0, Nat.zero_le _, rfl, Or.inr ⟨hlt, hacc⟩⟩
      · have hacc' : accepts buf c0 = false := by simpa using hacc
        have hL : byteAt buf c0 ≠ 0 := hpos 0 c0 rfl hlt hacc'
        have hstep : ∀ n c, cursorFrom buf len n (c0 + byteAt buf c0) = some c →
            cursorFrom buf len (n + 1) c0 = some c := by
          intro n c h
          simp [cursorFrom, hlt, hacc', h]
        obtain ⟨n, c, hn, hcur, hend⟩ := ih (c0 + byteAt buf c0) (by omega)
          (fun n c h => hpos (n + 1) c (hstep n c h))
        exact ⟨n + 1, c, by omega, hstep n c hcur, hend⟩

/-- Whatever the scan loop does, it submits no transfer itself. -/
theorem scanLoop_submitted (hs : HostStack) (buf : List Nat) (len d : Nat) :
    ∀ fuel c0 r, scanLoop hs buf len d fuel c0 = some r → submitted r.1 = [] := by
  intro fuel
  induction fuel with
  | zero => intro c0 r h; exact Option.noConfusion h
  | succ f ih =>
    intro c0 r h
    have step : ∀ (l : List Event),
        Option.map (fun r => (l ++ r.1, r.2))
          (scanLoop hs buf len d f (c0 + byteAt buf c0)) = some r →
        submitted l = [] → submitted r.1 = [] := by
      intro l hmap hl
      obtain ⟨r', hr', rfl⟩ := Option.map_eq_some'.1 hmap
      show submitted (l ++ r'.1) = []
      rw [submitted_append, ih _ _ hr', hl]
      rfl
    simp only [scanLoop] at h
    split at h
    · split at h
      · exact step _ h rfl
      · split at h
        · split at h
          · split at h <;> cases h <;> rfl
          · exact step _ h rfl
        · exact step _ h rfl
    · cases h; rfl

/-- What `descriptor_complete_cb` of `fastboot_rebooter.c` submits: nothing,
or one reboot command to a nonzero endpoint address of the same device. -/
theorem descriptor_complete_cb_submitted (hs : HostStack) (fuel : Nat) (xfer : tuh_xfer_t)
    (evs : List Event) (h : descriptor_complete_cb hs fuel xfer = some evs) :
    submitted evs = [] ∨ ∃ ep, ep ≠ 0 ∧ submitted evs = [reboot_xfer xfer.daddr ep] := by
  unfold descriptor_complete_cb at h
  cases hscan : scanLoop hs xfer.buffer xfer.actual_len xfer.daddr fuel 0 with
  | none => rw [hscan] at h; exact Option.noConfusion h
  | some r =>
    obtain ⟨sevs, exit⟩ := r
    have hs0 : submitted sevs = [] := scanLoop_submitted hs _ _ _ fuel 0 _ hscan
    rw [hscan] at h
    cases exit with
    | ret =>
      simp only [Option.some.injEq] at h
      subst h
      left
      rw [submitted_append, submitted_dumpDescriptor, hs0]
      rfl
    | done ep =>
      by_cases hep : ep ≠ 0
      · simp only [hep, if_true, Option.some.injEq, ne_eq, not_false_eq_true] at h
        subst h
        right
        refine ⟨ep, hep, ?_⟩
        rw [submitted_append, submitted_append, submitted_append, submitted_dumpDescriptor,
          hs0, submitted_send_fastboot_reboot]
        rfl
      · simp only [hep, if_false, Option.some.injEq] at h
        subst h
        left
        rw [submitted_append, submitted_append, submitted_dumpDescriptor, hs0]
        rfl

/-- The callback returns as soon as its scan loop ends. -/
theorem descriptor_complete_cb_returns (hs : HostStack) (fuel : Nat) (xfer : tuh_xfer_t)
    (r : List Event × LoopExit)
    (h : scanLoop hs xfer.buffer xfer.actual_len xfer.daddr fuel 0 = some r) :
    ∃ evs, descriptor_complete_cb hs fuel xfer = some evs := by
  unfold descriptor_complete_cb
  rw [h]
  obtain ⟨sevs, exit⟩ := r
  cases exit with
  | ret => exact ⟨_, rfl⟩
  | done ep =>
    by_cases hep : ep ≠ 0
    · exact ⟨_, if_pos hep⟩
    · exact ⟨_, if_neg hep⟩

theorem run_append (hs : HostStack) (fuel : Nat) : ∀ a b : List Callback,
    run hs fuel (a ++ b)
      = (run hs fuel a).bind fun ea => (run hs fuel b).map fun eb => ea ++ eb
  | [], b => by
    cases hb : run hs fuel b <;> simp [run, hb]
  | cb :: a, b => by
    have ih := run_append hs fuel a b
    cases hcb : dispatch hs fuel cb with
    | none => simp [run, hcb]
    | some evs =>
      cases ha : run hs fuel a with
      | none => simp [run, hcb, ih, ha]
      | some ea =>
        cases hb : run hs fuel b with
        | none => simp [run, hcb, ih, ha, hb]
        | some eb => simp [run, hcb, ih, ha, hb]

theorem tilesWith_cases {ok : Nat → Bool} {buf : List Nat} {len k c0 : Nat}
    (h : tilesWith ok buf len (k + 1) c0 = true) :
    c0 = len ∨ (2 ≤ byteAt buf c0 ∧ c0 + byteAt buf c0 ≤ len ∧ ok c0 = true
      ∧ tilesWith ok buf len k (c0 + byteAt buf c0) = true) := by
  simp only [tilesWith, Bool.or_eq_true, Bool.and_eq_true, decide_eq_true_eq] at h
  rcases h with h | ⟨⟨⟨h1, h2⟩, h3⟩, h4⟩
  · exact Or.inl h
  · exact Or.inr ⟨h1, h2, h3, h4⟩

theorem scanLoop_end (hs : HostStack) (buf : List Nat) (len d f c0 : Nat)
    (hge : ¬ c0 < len) : scanLoop hs buf len d (f + 1) c0 = some ([], .done 0) := by
  simp [scanLoop, hge]

theorem scanLoop_skip_interface (hs : HostStack) (buf : List Nat) (len d f c0 : Nat)
    (hlt : c0 < len) (hi : byteAt buf (c0 + 1) = TUSB_DESC_INTERFACE) :
    scanLoop hs buf len d (f + 1) c0
      = (scanLoop hs buf len d f (c0 + byteAt buf c0)).map fun r =>
          ([.read (c0 + 1), .read (c0 + 5), .read (c0 + 6), .read (c0 + 7),
            .printf .interfaceFound, .read c0] ++ r.1, r.2) := by
  simp [scanLoop, hlt, hi]

theorem scanLoop_skip_endpoint (hs : HostStack) (buf : List Nat) (len d f c0 : Nat)
    (hlt : c0 < len) (he : byteAt buf (c0 + 1) = TUSB_DESC_ENDPOINT)
    (htest : isBulkOutTest (byteAt buf (c0 + 2)) (byteAt buf (c0 + 3)) = false) :
    scanLoop hs buf len d (f + 1) c0
      = (scanLoop hs buf len d f (c0 + byteAt buf c0)).map fun r =>
          ([.read (c0 + 1), .read (c0 + 1), .read (c0 + 2), .read (c0 + 3),
            .read c0] ++ r.1, r.2) := by
  simp [scanLoop, hlt, he, htest, interface_ne_endpoint]

theorem scanLoop_skip_other (hs : HostStack) (buf : List Nat) (len d f c0 : Nat)
    (hlt : c0 < len) (hi : ¬ byteAt buf (c0 + 1) = TUSB_DESC_INTERFACE)
    (he : ¬ byteAt buf (c0 + 1) = TUSB_DESC_ENDPOINT) :
    scanLoop hs buf len d (f + 1) c0
      = (scanLoop hs buf len d f (c0 + byteAt buf c0)).map fun r =>
          ([.read (c0 + 1), .read (c0 + 1), .read c0] ++ r.1, r.2) := by
  simp [scanLoop, hlt, hi, he]

theorem scanLoop_hit (hs : HostStack) (buf : List Nat) (len d f c0 : Nat)
    (hlt : c0 < len) (he : byteAt buf (c0 + 1) = TUSB_DESC_ENDPOINT)
    (htest : isBulkOutTest (byteAt buf (c0 + 2)) (byteAt buf (c0 + 3)) = true) :
    scanLoop hs buf len d (f + 1) c0
      = some ([.read (c0 + 1), .read (c0 + 1), .read (c0 + 2), .read (c0 + 3),
            .printf .bulkOutFound, .tuh_edpt_open d c0,
            .printf (if hs.tuh_edpt_open d c0 then .bulkOutOpened else .openFailed)],
          if hs.tuh_edpt_open d c0 then .done (byteAt buf (c0 + 2)) else .ret) := by
  by_cases hopen : hs.tuh_edpt_open d c0 = true <;>
    simp [scanLoop, hlt, he, htest, hopen, interface_ne_endpoint]

/-- On a buffer whose records tile the received length and hold the fields
loaded from them, the scan loop of `fastboot_rebooter.c` ends and every load
is below the received length. -/
theorem scanLoop_reads_in_bounds (hs : HostStack) (buf : List Nat) (len d : Nat) :
    ∀ k c0, tilesWith (fieldsFit buf) buf len k c0 = true →
      ∀ fuel, k < fuel →
        ∃ r, scanLoop hs buf len d fuel c0 = some r
          ∧ ∀ off ∈ readOffsets r.1, off < len := by
  have hend : ∀ c0 f, c0 = len →
      ∃ r, scanLoop hs buf len d (f + 1) c0 = some r ∧ ∀ off ∈ readOffsets r.1, off < len := by
    intro c0 f hc
    refine ⟨_, scanLoop_end hs buf len d f c0 (by omega), ?_⟩
    intro off hoff
    exact absurd hoff (List.not_mem_nil _)
  intro k
  induction k with
  | zero =>
    intro c0 hwf fuel hfuel
    obtain ⟨f, rfl⟩ : ∃ f, fuel = f + 1 := ⟨fuel - 1, by omega⟩
    exact hend c0 f (by simpa [tilesWith] using hwf)
  | succ k ih =>
    intro c0 hwf fuel hfuel
    obtain ⟨f, rfl⟩ : ∃ f, fuel = f + 1 := ⟨fuel - 1, by omega⟩
    rcases tilesWith_cases hwf with hc | ⟨h2, hle, hfit, hrest⟩
    · exact hend c0 f hc
    · obtain ⟨r', hr', hreads⟩ := ih _ hrest f (by omega)
      have hlt : c0 < len := by omega
      simp only [fieldsFit, Bool.and_eq_true, decide_eq_true_eq] at hfit
      obtain ⟨hfi, hfe⟩ := hfit
      by_cases hi : byteAt buf (c0 + 1) = TUSB_DESC_INTERFACE
      · have h8 := hfi hi
        rw [scanLoop_skip_interface hs buf len d f c0 hlt hi, hr']
        refine ⟨_, rfl, ?_⟩
        intro off hoff
        simp only [readOffsets_append, List.mem_append] at hoff
        rcases hoff with hoff | hoff
        · simp [readOffsets] at hoff
          omega
        · exact hreads off hoff
      · by_cases he : byteAt buf (c0 + 1) = TUSB_DESC_ENDPOINT
        · have h4 := hfe he
          by_cases htest : isBulkOutTest (byteAt buf (c0 + 2)) (byteAt buf (c0 + 3)) = true
          · rw [scanLoop_hit hs buf len d f c0 hlt he htest]
            refine ⟨_, rfl, ?_⟩
            intro off hoff
            simp [readOffsets] at hoff
            omega
          · have htest' : isBulkOutTest (byteAt buf (c0 + 2)) (byteAt buf (c0 + 3)) = false := by
              simpa using htest
            rw [scanLoop_skip_endpoint hs buf len d f c0 hlt he htest', hr']
            refine ⟨_, rfl, ?_⟩
            intro off hoff
            simp only [readOffsets_append, List.mem_append] at hoff
            rcases hoff with hoff | hoff
            · simp [readOffsets] at hoff
              omega
            · exact hreads off hoff
        · rw [scanLoop_skip_other hs buf len d f c0 hlt hi he, hr']
          refine ⟨_, rfl, ?_⟩
          intro off hoff
          simp only [readOffsets_append, List.mem_append] at hoff
          rcases hoff with hoff | hoff
          · simp [readOffsets] at hoff
            omega
          · exact hreads off hoff

theorem scanLoop_old_end (buf : List Nat) (p_end f p : Nat) (hge : ¬ p < p_end) :
    scanLoop_old buf p_end (f + 1) p = some ([], 0) := by
  simp [scanLoop_old, hge]

theorem scanLoop_old_skip_other (buf : List Nat) (p_end f p : Nat) (hlt : p < p_end)
    (he : ¬ byteAt buf (p + 1) = TUSB_DESC_ENDPOINT) :
    scanLoop_old buf p_end (f + 1) p
      = (scanLoop_old buf p_end f (p + byteAt buf p)).map fun r =>
          ([.read (p + 1), .read p] ++ r.1, r.2) := by
  have he' : ¬ TUSB_DESC_ENDPOINT = byteAt buf (p + 1) := fun h => he h.symm
  simp [scanLoop_old, hlt, tu_desc_type, tu_desc_next, he']

theorem scanLoop_old_skip_type (buf : List Nat) (p_end f p : Nat) (hlt : p < p_end)
    (he : byteAt buf (p + 1) = TUSB_DESC_ENDPOINT)
    (hx : ¬ byteAt buf (p + 3) % 4 = TUSB_XFER_BULK) :
    scanLoop_old buf p_end (f + 1) p
      = (scanLoop_old buf p_end f (p + byteAt buf p)).map fun r =>
          ([.read (p + 1), .read (p + 3), .read p] ++ r.1, r.2) := by
  have hx' : ¬ TUSB_XFER_BULK = byteAt buf (p + 3) % 4 := fun h => hx h.symm
  simp [scanLoop_old, hlt, tu_desc_type, tu_desc_next, bmAttributes_xfer, he, hx']

theorem scanLoop_old_skip_in (buf : List Nat) (p_end f p : Nat) (hlt : p < p_end)
    (he : byteAt buf (p + 1) = TUSB_DESC_ENDPOINT)
    (hx : byteAt buf (p + 3) % 4 = TUSB_XFER_BULK)
    (hdir : ¬ tu_edpt_dir (byteAt buf (p + 2)) = 0) :
    scanLoop_old buf p_end (f + 1) p
      = (scanLoop_old buf p_end f (p + byteAt buf p)).map fun r =>
          ([.read (p + 1), .read (p + 3), .read (p + 2), .read p] ++ r.1, r.2) := by
  simp [scanLoop_old, hlt, tu_desc_type, tu_desc_next, bmAttributes_xfer, he, hx, hdir]

theorem scanLoop_old_hit (buf : List Nat) (p_end f p : Nat) (hlt : p < p_end)
    (he : byteAt buf (p + 1) = TUSB_DESC_ENDPOINT)
    (hx : byteAt buf (p + 3) % 4 = TUSB_XFER_BULK)
    (hdir : tu_edpt_dir (byteAt buf (p + 2)) = 0) :
    scanLoop_old buf p_end (f + 1) p
      = some ([.read (p + 1), .read (p + 3), .read (p + 2), .read (p + 2),
          .printf .bulkOutFound], byteAt buf (p + 2)) := by
  simp [scanLoop_old, hlt, tu_desc_type, bmAttributes_xfer, he, hx, hdir]

/-- On a buffer whose records tile the bytes up to `p_end` and hold the
fields loaded from them, the scan loop of `fastboot_rebooter.old.c` ends and
every load is below `p_end`. -/
theorem scanLoop_old_reads_in_bounds (buf : List Nat) (p_end : Nat) :
    ∀ k p, tilesWith (fieldsFit buf) buf p_end k p = true →
      ∀ fuel, k < fuel →
        ∃ r, scanLoop_old buf p_end fuel p = some r
          ∧ ∀ off ∈ readOffsets r.1, off < p_end := by
  have hend : ∀ p f, p = p_end →
      ∃ r, scanLoop_old buf p_end (f + 1) p = some r
        ∧ ∀ off ∈ readOffsets r.1, off < p_end := by
    intro p f hc
    refine ⟨_, scanLoop_old_end buf p_end f p (by omega), ?_⟩
    intro off hoff
    exact absurd hoff (List.not_mem_nil _)
  intro k
  induction k with
  | zero =>
    intro p hwf fuel hfuel
    obtain ⟨f, rfl⟩ : ∃ f, fuel = f + 1 := ⟨fuel - 1, by omega⟩
    exact hend p f (by simpa [tilesWith] using hwf)
  | succ k ih =>
    intro p hwf fuel hfuel
    obtain ⟨f, rfl⟩ : ∃ f, fuel = f + 1 := ⟨fuel - 1, by omega⟩
    rcases tilesWith_cases hwf with hc | ⟨h2, hle, hfit, hrest⟩
    · exact hend p f hc
    · obtain ⟨r', hr', hreads⟩ := ih _ hrest f (by omega)
      have hlt : p < p_end := by omega
      simp only [fieldsFit, Bool.and_eq_true, decide_eq_true_eq] at hfit
      obtain ⟨_, hfe⟩ := hfit
      by_cases he : byteAt buf (p + 1) = TUSB_DESC_ENDPOINT
      · have h4 := hfe he
        by_cases hx : byteAt buf (p + 3) % 4 = TUSB_XFER_BULK
        · by_cases hdir : tu_edpt_dir (byteAt buf (p + 2)) = 0
          · rw [scanLoop_old_hit buf p_end f p hlt he hx hdir]
            refine ⟨_, rfl, ?_⟩
            intro off hoff
            simp [readOffsets] at hoff
            omega
          · rw [scanLoop_old_skip_in buf p_end f p hlt he hx hdir, hr']
            refine ⟨_, rfl, ?_⟩
            intro off hoff
            simp only [readOffsets_append, List.mem_append] at hoff
            rcases hoff with hoff | hoff
            · simp [readOffsets] at hoff
              omega
            · exact hreads off hoff
        · rw [scanLoop_old_skip_type buf p_end f p hlt he hx, hr']
          refine ⟨_, rfl, ?_⟩
          intro off hoff
          simp only [readOffsets_append, List.mem_append] at hoff
          rcases hoff with hoff | hoff
          · simp [readOffsets] at hoff
            omega
          · exact hreads off hoff
      · rw [scanLoop_old_skip_other buf p_end f p hlt he, hr']
        refine ⟨_, rfl, ?_⟩
        intro off hoff
        simp only [readOffsets_append, List.mem_append] at hoff
        rcases hoff with hoff | hoff
        · simp [readOffsets] at hoff
          omega
        · exact hreads off hoff

theorem land_two (a : Nat) : a &&& 2 = 2 * (a / 2 % 2) := by
  have h1 : (a &&& 2) / 2 = a / 2 % 2 := by
    rw [Nat.and_div_two]
    simp
  have h2 : (a &&& 2) % 2 = 0 := by
    have h := @Nat.and_mod_two_eq_one a 2
    have h3 : ¬ ((a &&& 2) % 2 = 1) := by
      rw [h]
      omega
    omega
  omega

/-- The mask test on the attributes holds for transfer types 2 and 3. -/
theorem land_bulk_ne_zero (a : Nat) :
    a &&& TUSB_XFER_BULK ≠ 0 ↔ (a % 4 = TUSB_XFER_BULK ∨ a % 4 = TUSB_XFER_INTERRUPT) := by
  unfold TUSB_XFER_BULK TUSB_XFER_INTERRUPT
  rw [land_two]
  omega

theorem tu_edpt_dir_eq_zero (addr : Nat) :
    tu_edpt_dir addr = 0 ↔ addr &&& TUSB_DIR_IN_MASK = 0 := by
  unfold tu_edpt_dir
  by_cases h : addr &&& TUSB_DIR_IN_MASK = 0 <;> simp [h]

/-- On an endpoint record that is not an interrupt OUT record, the test of
`fastboot_rebooter.c` and the test of `fastboot_rebooter.old.c` agree. -/
theorem tests_agree (buf : List Nat) (c : Nat)
    (he : byteAt buf (c + 1) = TUSB_DESC_ENDPOINT)
    (hni : isInterruptOutRecord buf c = false) :
    isBulkOutTest (byteAt buf (c + 2)) (byteAt buf (c + 3)) = true
      ↔ (byteAt buf (c + 3) % 4 = TUSB_XFER_BULK ∧ tu_edpt_dir (byteAt buf (c + 2)) = 0) := by
  have hni' : ¬ (byteAt buf (c + 3) % 4 = TUSB_XFER_INTERRUPT
      ∧ byteAt buf (c + 2) &&& TUSB_DIR_IN_MASK = 0) := by
    intro h
    simp [isInterruptOutRecord, he, h.1, h.2] at hni
  simp only [isBulkOutTest, Bool.and_eq_true, decide_eq_true_eq, tu_edpt_dir_eq_zero,
    land_bulk_ne_zero]
  constructor
  · rintro ⟨hdir, hx | hx⟩
    · exact ⟨hx, hdir⟩
    · exact absurd ⟨hx, hdir⟩ hni'
  · rintro ⟨hx, hdir⟩
    exact ⟨hdir, Or.inl hx⟩

/-- On a buffer whose records tile the received length and are no interrupt
OUT records, with every endpoint open succeeding, the scan loops of the two
variants end with the same `ep_addr`, neither submitting anything. -/
theorem scanLoops_agree (hs : HostStack) (buf : List Nat) (len d : Nat)
    (hopen : ∀ c, hs.tuh_edpt_open d c = true) :
    ∀ k c0, tilesWith (fun c => !isInterruptOutRecord buf c) buf len k c0 = true →
      ∀ fuel, k < fuel →
        ∃ evo evn ep, scanLoop_old buf len fuel c0 = some (evo, ep)
          ∧ scanLoop hs buf len d fuel c0 = some (evn, .done ep)
          ∧ submitted evo = [] ∧ submitted evn = [] := by
  have hend : ∀ c0 f, c0 = len →
      ∃ evo evn ep, scanLoop_old buf len (f + 1) c0 = some (evo, ep)
        ∧ scanLoop hs buf len d (f + 1) c0 = some (evn, .done ep)
        ∧ submitted evo = [] ∧ submitted evn = [] := by
    intro c0 f hc
    exact ⟨_, _, _, scanLoop_old_end buf len f c0 (by omega),
      scanLoop_end hs buf len d f c0 (by omega), rfl, rfl⟩
  intro k
  induction k with
  | zero =>
    intro c0 hwf fuel hfuel
    obtain ⟨f, rfl⟩ : ∃ f, fuel = f + 1 := ⟨fuel - 1, by omega⟩
    exact hend c0 f (by simpa [tilesWith] using hwf)
  | succ k ih =>
    intro c0 hwf fuel hfuel
    obtain ⟨f, rfl⟩ : ∃ f, fuel = f + 1 := ⟨fuel - 1, by omega⟩
    rcases tilesWith_cases hwf with hc | ⟨h2, hle, hni, hrest⟩
    · exact hend c0 f hc
    · obtain ⟨evo, evn, ep, hro, hrn, hso, hsn⟩ := ih _ hrest f (by omega)
      have hlt : c0 < len := by omega
      have hni' : isInterruptOutRecord buf c0 = false := by simpa using hni
      by_cases he : byteAt buf (c0 + 1) = TUSB_DESC_ENDPOINT
      · have hagree := tests_agree buf c0 he hni'
        by_cases htest : isBulkOutTest (byteAt buf (c0 + 2)) (byteAt buf (c0 + 3)) = true
        · obtain ⟨hx, hdir⟩ := hagree.1 htest
          have hnew := scanLoop_hit hs buf len d f c0 hlt he htest
          simp only [hopen, if_true] at hnew
          exact ⟨_, _, _, scanLoop_old_hit buf len f c0 hlt he hx hdir, hnew, rfl, rfl⟩
        · have htest' : isBulkOutTest (byteAt buf (c0 + 2)) (byteAt buf (c0 + 3)) = false := by
            simpa using htest
          have hnew := scanLoop_skip_endpoint hs buf len d f c0 hlt he htest'
          rw [hrn] at hnew
          by_cases hx : byteAt buf (c0 + 3) % 4 = TUSB_XFER_BULK
          · have hdir : ¬ tu_edpt_dir (byteAt buf (c0 + 2)) = 0 :=
              fun hdir => htest (hagree.2 ⟨hx, hdir⟩)
            have hold := scanLoop_old_skip_in buf len f c0 hlt he hx hdir
            rw [hro] at hold
            refine ⟨_, _, _, hold, hnew, ?_, ?_⟩
            · show submitted (_ ++ evo) = []
              rw [submitted_append, hso]
              rfl
            · show submitted (_ ++ evn) = []
              rw [submitted_append, hsn]
              rfl
          · have hold := scanLoop_old_skip_type buf len f c0 hlt he hx
            rw [hro] at hold
            refine ⟨_, _, _, hold, hnew, ?_, ?_⟩
            · show submitted (_ ++ evo) = []
              rw [submitted_append, hso]
              rfl
            · show submitted (_ ++ evn) = []
              rw [submitted_append, hsn]
              rfl
      · have hold := scanLoop_old_skip_other buf len f c0 hlt he
        rw [hro] at hold
        by_cases hi : byteAt buf (c0 + 1) = TUSB_DESC_INTERFACE
        · have hnew := scanLoop_skip_interface hs buf len d f c0 hlt hi
          rw [hrn] at hnew
          refine ⟨_, _, _, hold, hnew, ?_, ?_⟩
          · show submitted (_ ++ evo) = []
            rw [submitted_append, hso]
            rfl
          · show submitted (_ ++ evn) = []
            rw [submitted_append, hsn]
            rfl
        · have hnew := scanLoop_skip_other hs buf len d f c0 hlt hi he
          rw [hrn] at hnew
          refine ⟨_, _, _, hold, hnew, ?_, ?_⟩
          · show submitted (_ ++ evo) = []
            rw [submitted_append, hso]
            rfl
          · show submitted (_ ++ evn) = []
            rw [submitted_append, hsn]
            rfl

theorem submitted_send_fastboot_reboot_old (hs : HostStack) (dev_addr ep_addr : Nat) :
    submitted (send_fastboot_reboot_old hs dev_addr ep_addr)
      = [reboot_xfer_old dev_addr ep_addr] := by
  by_cases h : hs.tuh_edpt_xfer (reboot_xfer_old dev_addr ep_addr) = true <;>
    simp [send_fastboot_reboot_old, h, submitted, set_led_fail]

/-- C5: for every device address and endpoint address, the transfer that
`send_fastboot_reboot` submits has buffer length 7, its first 7 buffer bytes
are the ASCII bytes of "reboot" followed by one NUL, and its device
and endpoint addresses are the arguments; it is the only thing submitted. -/
theorem C5_reboot_command_payload (hs : HostStack) (dev_addr ep_addr : Nat) :
    ∃ x, submitted (send_fastboot_reboot hs dev_addr ep_addr) = [x]
      ∧ x.buflen = 7
      ∧ x.buffer.take 7
          = ['r'.toNat, 'e'.toNat, 'b'.toNat, 'o'.toNat, 'o'.toNat, 't'.toNat, 0]
      ∧ x.daddr = dev_addr ∧ x.ep_addr = ep_addr :=
  ⟨reboot_xfer dev_addr ep_addr, submitted_send_fastboot_reboot hs dev_addr ep_addr,
    rfl, rfl, rfl, rfl⟩

set_option maxRecDepth 100000 in
/-- C1: on a well-formed configuration holding an interrupt OUT endpoint 0x01
(record at offset 18) before a bulk OUT endpoint 0x02 (record at offset 25,
the only bulk OUT record), `descriptor_complete_cb` of `fastboot_rebooter.c`
calls `tuh_edpt_open` on the record at offset 18 and submits the command to
the endpoint 0x01: the interrupt endpoint is not skipped and the first bulk
OUT record is not the one selected. -/
theorem C1_interrupt_out_selected_before_bulk_out :
    wellFormed interruptThenBulkConfig 32 = true
      ∧ [0, 9, 18, 25].map (isBulkOutRecord interruptThenBulkConfig)
          = [false, false, false, true]
      ∧ byteAt interruptThenBulkConfig (25 + 2) = 2
      ∧ (descriptor_complete_cb hostAccepting 33
            (descriptorXfer 1 XFER_RESULT_SUCCESS interruptThenBulkConfig)).map
          (fun evs => (opened evs, (submitted evs).map (fun x => x.ep_addr)))
          = some ([(1, 18)], [1]) := by
  decide

set_option maxRecDepth 100000 in
/-- C2: on a well-formed configuration with no bulk OUT endpoint record, whose
only endpoint is an interrupt OUT endpoint 0x01 (record at offset 18),
`descriptor_complete_cb` of `fastboot_rebooter.c` does not end with "not
found": it opens that record and submits the command to endpoint 0x01. -/
theorem C2_interrupt_out_only_is_opened_and_sent :
    wellFormed interruptOutConfig 25 = true
      ∧ [0, 9, 18].map (isBulkOutRecord interruptOutConfig) = [false, false, false]
      ∧ isInterruptOutRecord interruptOutConfig 18 = true
      ∧ (descriptor_complete_cb hostAccepting 26
            (descriptorXfer 1 XFER_RESULT_SUCCESS interruptOutConfig)).map
          (fun evs => (opened evs, submitted evs, decide (Event.printf Msg.notFound ∈ evs)))
          = some ([(1, 18)], [reboot_xfer 1 1], false) := by
  decide

set_option maxRecDepth 100000 in
/-- C6: on a completion whose result code is `XFER_RESULT_FAILED` and whose
buffer holds a configuration with a bulk OUT endpoint 0x01,
`descriptor_complete_cb` of `fastboot_rebooter.c` opens the endpoint and
submits the command all the same, while the old variant does neither. -/
theorem C6_failed_completion_still_opens_and_sends :
    XFER_RESULT_FAILED ≠ XFER_RESULT_SUCCESS
      ∧ (descriptor_complete_cb hostAccepting 26
            (descriptorXfer 1 XFER_RESULT_FAILED bulkOutConfig)).map
          (fun evs => (opened evs, submitted evs))
          = some ([(1, 18)], [reboot_xfer 1 1])
      ∧ (descriptor_complete_cb_old hostAccepting 26
            (descriptorXfer 1 XFER_RESULT_FAILED bulkOutConfig)).map
          (fun evs => (opened evs, submitted evs))
          = some ([], []) := by
  decide

set_option maxRecDepth 100000 in
/-- C3, as stated, fails: with 10 bytes received of a configuration whose
header declares 18, `descriptor_complete_cb` of `fastboot_rebooter.c` returns
normally after loading the byte at offset 10 of the 512-byte array, which is
not below the received length. -/
theorem C3_counterexample_read_past_received_length :
    (descriptorXfer 1 XFER_RESULT_SUCCESS truncatedConfig).actual_len = 10
      ∧ (∃ evs, descriptor_complete_cb hostAccepting 11
            (descriptorXfer 1 XFER_RESULT_SUCCESS truncatedConfig) = some evs
          ∧ 10 ∈ readOffsets evs)
      ∧ ¬ ∀ evs,
          descriptor_complete_cb hostAccepting 11
              (descriptorXfer 1 XFER_RESULT_SUCCESS truncatedConfig) = some evs →
            ∀ off ∈ readOffsets evs,
              off < (descriptorXfer 1 XFER_RESULT_SUCCESS truncatedConfig).actual_len := by
  have hrun : ∃ evs, descriptor_complete_cb hostAccepting 11
      (descriptorXfer 1 XFER_RESULT_SUCCESS truncatedConfig) = some evs
      ∧ 10 ∈ readOffsets evs := by
    decide
  refine ⟨rfl, hrun, ?_⟩
  intro h
  obtain ⟨evs, hevs, hmem⟩ := hrun
  exact absurd (h evs hevs 10 hmem) (by decide)

/-- C8: when the walk of `descriptor_complete_cb` in `fastboot_rebooter.c`
reaches a record it accepts (at offset `c`) and `tuh_edpt_open` fails on it,
the callback returns right after that one open and its log line: everything
before is free of opens and submissions, so no command is submitted, no later
record is scanned or opened and the open is not retried. -/
theorem C8_open_failure_ends_session (hs : HostStack) (xfer : tuh_xfer_t) (n c : Nat)
    (hreach : cursorFrom xfer.buffer xfer.actual_len n 0 = some c)
    (hlt : c < xfer.actual_len) (hacc : accepts xfer.buffer c = true)
    (hfail : hs.tuh_edpt_open xfer.daddr c = false) (fuel : Nat) (hfuel : n < fuel) :
    ∃ before,
      descriptor_complete_cb hs fuel xfer
          = some (before ++ [.tuh_edpt_open xfer.daddr c, .printf .openFailed])
        ∧ opened before = [] ∧ submitted before = [] := by
  obtain ⟨pre, hpre, hrun⟩ :=
    scanLoop_accept hs xfer.buffer xfer.actual_len xfer.daddr n 0 c hreach hlt hacc fuel hfuel
  simp only [hfail, Bool.false_eq_true, if_false] at hrun
  refine ⟨dumpDescriptor xfer.actual_len ++ (pre ++ [.read (c + 1), .read (c + 1),
    .read (c + 2), .read (c + 3), .printf .bulkOutFound]), ?_, ?_, ?_⟩
  · simp [descriptor_complete_cb, hrun]
  · rw [opened_append, opened_append, opened_dumpDescriptor, opened_of_skip pre hpre]
    rfl
  · rw [submitted_append, submitted_append, submitted_dumpDescriptor,
      submitted_of_skip pre hpre]
    rfl

set_option maxRecDepth 100000 in
/-- C8 at a concrete input: a configuration with a bulk OUT endpoint at offset
18 and a host stack that refuses to open endpoints. -/
theorem C8_open_failure_ends_session_witness :
    cursorFrom (descriptorXfer 1 XFER_RESULT_SUCCESS bulkOutConfig).buffer 25 2 0 = some 18
      ∧ accepts (descriptorXfer 1 XFER_RESULT_SUCCESS bulkOutConfig).buffer 18 = true
      ∧ ∃ before,
          descriptor_complete_cb hostRefusingOpen 3
              (descriptorXfer 1 XFER_RESULT_SUCCESS bulkOutConfig)
            = some (before ++ [.tuh_edpt_open 1 18, .printf .openFailed])
          ∧ opened before = [] ∧ submitted before = [] :=
  ⟨by decide, by decide,
    C8_open_failure_ends_session hostRefusingOpen
      (descriptorXfer 1 XFER_RESULT_SUCCESS bulkOutConfig) 2 18
      (by decide) (by decide) (by decide) rfl 3 (by decide)⟩

/-- C10: when the first record that the walk of `descriptor_complete_cb` in
`fastboot_rebooter.c` accepts (at offset `c`) has address byte 0, the callback
calls `tuh_edpt_open` on that record, once, and submits no command whether or
not the open succeeds; when the open succeeds it reports the endpoint as not
found.  Conversely every command the callback submits goes to a
nonzero endpoint address. -/
theorem C10_address_zero_is_not_found (hs : HostStack) (xfer : tuh_xfer_t) (n c : Nat)
    (hreach : cursorFrom xfer.buffer xfer.actual_len n 0 = some c)
    (hlt : c < xfer.actual_len) (hacc : accepts xfer.buffer c = true)
    (hzero : byteAt xfer.buffer (c + 2) = 0) (fuel : Nat) (hfuel : n < fuel) :
    (∃ evs, descriptor_complete_cb hs fuel xfer = some evs
        ∧ opened evs = [(xfer.daddr, c)] ∧ submitted evs = []
        ∧ (hs.tuh_edpt_open xfer.daddr c = true → Event.printf .notFound ∈ evs))
      ∧ ∀ (hs' : HostStack) (fuel' : Nat) (xfer' : tuh_xfer_t) (evs' : List Event)
          (y : tuh_xfer_t),
          descriptor_complete_cb hs' fuel' xfer' = some evs' → y ∈ submitted evs' →
            y.ep_addr ≠ 0 := by
  constructor
  · obtain ⟨pre, hpre, hrun⟩ :=
      scanLoop_accept hs xfer.buffer xfer.actual_len xfer.daddr n 0 c hreach hlt hacc fuel
        hfuel
    by_cases hopen : hs.tuh_edpt_open xfer.daddr c = true
    · simp only [hopen, if_true, hzero] at hrun
      have hcb : descriptor_complete_cb hs fuel xfer
          = some (dumpDescriptor xfer.actual_len ++ (pre ++ [.read (c + 1), .read (c + 1),
              .read (c + 2), .read (c + 3), .printf .bulkOutFound,
              .tuh_edpt_open xfer.daddr c, .printf .bulkOutOpened])
              ++ [.printf .notFound]) := by
        simp only [descriptor_complete_cb, hrun, ne_eq, not_true_eq_false, if_false]
      refine ⟨_, hcb, ?_, ?_, ?_⟩
      · rw [opened_append, opened_append, opened_append, opened_dumpDescriptor,
          opened_of_skip pre hpre]
        rfl
      · rw [submitted_append, submitted_append, submitted_append, submitted_dumpDescriptor,
          submitted_of_skip pre hpre]
        rfl
      · intro _
        simp
    · have hfalse : hs.tuh_edpt_open xfer.daddr c = false := by simpa using hopen
      simp only [hfalse, Bool.false_eq_true, if_false] at hrun
      have hcb : descriptor_complete_cb hs fuel xfer
          = some (dumpDescriptor xfer.actual_len ++ (pre ++ [.read (c + 1), .read (c + 1),
              .read (c + 2), .read (c + 3), .printf .bulkOutFound,
              .tuh_edpt_open xfer.daddr c, .printf .openFailed])) := by
        simp only [descriptor_complete_cb, hrun]
      refine ⟨_, hcb, ?_, ?_, ?_⟩
      · rw [opened_append, opened_append, opened_dumpDescriptor, opened_of_skip pre hpre]
        rfl
      · rw [submitted_append, submitted_append, submitted_dumpDescriptor,
          submitted_of_skip pre hpre]
        rfl
      · intro h
        exact absurd h hopen
  · intro hs' fuel' xfer' evs' y hrun hy
    rcases descriptor_complete_cb_submitted hs' fuel' xfer' evs' hrun with h | ⟨ep, hep, h⟩
    · rw [h] at hy
      exact absurd hy (List.not_mem_nil _)
    · rw [h, List.mem_singleton] at hy
      subst hy
      exact hep

set_option maxRecDepth 100000 in
/-- C10 at a concrete input: a configuration whose bulk OUT endpoint record,
at offset 18, has address 0x00, and a host stack that accepts the open. -/
theorem C10_address_zero_is_not_found_witness :
    cursorFrom (descriptorXfer 1 XFER_RESULT_SUCCESS addressZeroConfig).buffer 25 2 0
        = some 18
      ∧ byteAt (descriptorXfer 1 XFER_RESULT_SUCCESS addressZeroConfig).buffer (18 + 2) = 0
      ∧ ∃ evs, descriptor_complete_cb hostAccepting 3
            (descriptorXfer 1 XFER_RESULT_SUCCESS addressZeroConfig) = some evs
          ∧ opened evs = [(1, 18)] ∧ submitted evs = []
          ∧ (hostAccepting.tuh_edpt_open 1 18 = true → Event.printf .notFound ∈ evs) :=
  ⟨by decide, by decide,
    (C10_address_zero_is_not_found hostAccepting
      (descriptorXfer 1 XFER_RESULT_SUCCESS addressZeroConfig) 2 18
      (by decide) (by decide) (by decide) (by decide) 3 (by decide)).1⟩

set_option maxRecDepth 100000 in
/-- C4, as stated, fails: in a configuration whose header is followed by a
record of declared length 0, the cursor of `descriptor_complete_cb` in
`fastboot_rebooter.c` reaches that record (offset 9) after one iteration and
the callback has not returned after any number of loop iterations. -/
theorem C4_counterexample_zero_length_never_ends :
    cursorFrom (descriptorXfer 1 XFER_RESULT_SUCCESS zeroLengthConfig).buffer 11 1 0 = some 9
      ∧ byteAt (descriptorXfer 1 XFER_RESULT_SUCCESS zeroLengthConfig).buffer 9 = 0
      ∧ ¬ ∃ fuel evs,
          descriptor_complete_cb hostAccepting fuel
            (descriptorXfer 1 XFER_RESULT_SUCCESS zeroLengthConfig) = some evs := by
  refine ⟨by decide, by decide, ?_⟩
  rintro ⟨fuel, evs, h⟩
  have hstuck := scanLoop_stuck hostAccepting
    (descriptorXfer 1 XFER_RESULT_SUCCESS zeroLengthConfig).buffer
    (descriptorXfer 1 XFER_RESULT_SUCCESS zeroLengthConfig).actual_len
    (descriptorXfer 1 XFER_RESULT_SUCCESS zeroLengthConfig).daddr 1 0 9
    (by decide) (by decide) (by decide) (by decide) fuel
  simp only [descriptor_complete_cb, hstuck] at h
  exact Option.noConfusion h

/-- C4, amended: when every record that the cursor of the scan loop of
`descriptor_complete_cb` in `fastboot_rebooter.c` reaches without accepting it
has a nonzero declared length byte, the loop ends within `actual_len`
iterations and the callback returns.  A declared length of 1 is no failure:
the cursor moves on by one byte. -/
theorem C4_scan_terminates_on_nonzero_lengths (hs : HostStack) (xfer : tuh_xfer_t)
    (hpos : ∀ n c, cursorFrom xfer.buffer xfer.actual_len n 0 = some c →
      c < xfer.actual_len → accepts xfer.buffer c = false → byteAt xfer.buffer c ≠ 0)
    (fuel : Nat) (hfuel : xfer.actual_len < fuel) :
    ∃ evs, descriptor_complete_cb hs fuel xfer = some evs := by
  obtain ⟨n, c, hn, hcur, hend⟩ :=
    cursorFrom_ends xfer.buffer xfer.actual_len xfer.actual_len 0 (by omega) hpos
  rcases hend with hge | ⟨hlt, hacc⟩
  · obtain ⟨pre, _, hrun⟩ :=
      scanLoop_exhaust hs xfer.buffer xfer.actual_len xfer.daddr n 0 c hcur hge fuel
        (by omega)
    exact descriptor_complete_cb_returns hs fuel xfer _ hrun
  · obtain ⟨pre, _, hrun⟩ :=
      scanLoop_accept hs xfer.buffer xfer.actual_len xfer.daddr n 0 c hcur hlt hacc fuel
        (by omega)
    exact descriptor_complete_cb_returns hs fuel xfer _ hrun

set_option maxRecDepth 100000 in
/-- C4, amended, at a concrete input: a record of declared length 1 followed
by a bulk OUT endpoint record at offset 1, which the walk goes on to open. -/
theorem C4_scan_terminates_on_nonzero_lengths_witness :
    (∀ n c, cursorFrom (descriptorXfer 1 XFER_RESULT_SUCCESS lengthOneConfig).buffer
        (descriptorXfer 1 XFER_RESULT_SUCCESS lengthOneConfig).actual_len n 0 = some c →
      c < (descriptorXfer 1 XFER_RESULT_SUCCESS lengthOneConfig).actual_len →
      accepts (descriptorXfer 1 XFER_RESULT_SUCCESS lengthOneConfig).buffer c = false →
      byteAt (descriptorXfer 1 XFER_RESULT_SUCCESS lengthOneConfig).buffer c ≠ 0)
      ∧ ∃ evs, descriptor_complete_cb hostAccepting 9
          (descriptorXfer 1 XFER_RESULT_SUCCESS lengthOneConfig) = some evs := by
  have hpos : ∀ n c, cursorFrom (descriptorXfer 1 XFER_RESULT_SUCCESS lengthOneConfig).buffer
        (descriptorXfer 1 XFER_RESULT_SUCCESS lengthOneConfig).actual_len n 0 = some c →
      c < (descriptorXfer 1 XFER_RESULT_SUCCESS lengthOneConfig).actual_len →
      accepts (descriptorXfer 1 XFER_RESULT_SUCCESS lengthOneConfig).buffer c = false →
      byteAt (descriptorXfer 1 XFER_RESULT_SUCCESS lengthOneConfig).buffer c ≠ 0 := by
    intro n c hcur _ hacc
    match n, hcur with
    | 0, hcur =>
      have hc : c = 0 := by simpa [cursorFrom] using hcur.symm
      subst hc
      decide
    | 1, hcur =>
      have h1 : cursorFrom (descriptorXfer 1 XFER_RESULT_SUCCESS lengthOneConfig).buffer
          (descriptorXfer 1 XFER_RESULT_SUCCESS lengthOneConfig).actual_len 1 0 = some 1 := by
        decide
      rw [h1] at hcur
      cases hcur
      exact absurd hacc (by decide)
    | n + 2, hcur =>
      have h2 : cursorFrom (descriptorXfer 1 XFER_RESULT_SUCCESS lengthOneConfig).buffer
          (descriptorXfer 1 XFER_RESULT_SUCCESS lengthOneConfig).actual_len (n + 2) 0
            = none := by
        have hstep : (descriptorXfer 1 XFER_RESULT_SUCCESS lengthOneConfig).actual_len = 8
            ∧ accepts (descriptorXfer 1 XFER_RESULT_SUCCESS lengthOneConfig).buffer 0 = false
            ∧ byteAt (descriptorXfer 1 XFER_RESULT_SUCCESS lengthOneConfig).buffer 0 = 1
            ∧ accepts (descriptorXfer 1 XFER_RESULT_SUCCESS lengthOneConfig).buffer 1
                = true := by
          decide
        obtain ⟨hlen, ha0, hb0, ha1⟩ := hstep
        simp [cursorFrom, hlen, ha0, hb0, ha1]
      rw [h2] at hcur
      exact Option.noConfusion hcur
  exact ⟨hpos, C4_scan_terminates_on_nonzero_lengths hostAccepting
    (descriptorXfer 1 XFER_RESULT_SUCCESS lengthOneConfig) hpos 9 (by decide)⟩

set_option maxRecDepth 100000 in
/-- C7, as stated, fails: after attach and detach of device 1, the stale
`descriptor_complete_cb` for device 1 over a configuration with a bulk
OUT endpoint is not discarded: among the events of the three callbacks there is
an endpoint open (record at offset 18) and a submitted reboot command, neither of
which comes from the attach or the detach callback. -/
theorem C7_counterexample_stale_completion_acted_upon :
    (run hostAccepting 26
        [.mount 1, .umount 1,
          .descriptor_complete (descriptorXfer 1 XFER_RESULT_SUCCESS bulkOutConfig)]).map
        (fun evs => (opened evs, submitted evs))
        = some ([(1, 18)], [reboot_xfer 1 1])
      ∧ opened (tuh_mount_cb hostAccepting 1 ++ tuh_umount_cb 1) = []
      ∧ submitted (tuh_mount_cb hostAccepting 1 ++ tuh_umount_cb 1) = [] := by
  decide

/-- C7, amended: `tuh_umount_cb` only logs and the program keeps no session
state, so taking a detach out of any sequence of callbacks leaves every other
event as it was: the callbacks after the detach, a stale
`descriptor_complete_cb` among them, load, open and submit exactly what they
would without the detach. -/
theorem C7_detach_only_logs (hs : HostStack) (fuel : Nat) (before after : List Callback)
    (d : Nat) :
    (run hs fuel (before ++ .umount d :: after)).map withoutDetachLog
      = (run hs fuel (before ++ after)).map withoutDetachLog := by
  rw [run_append, run_append]
  cases hb : run hs fuel before with
  | none => rfl
  | some eb =>
    cases ha : run hs fuel after with
    | none => simp [run, dispatch, ha]
    | some ea =>
      simp [run, dispatch, ha, tuh_umount_cb, withoutDetachLog, List.filter_append,
        List.filter_cons]

/-- C3, amended: on a buffer whose records tile the received length exactly,
each with a declared length of at least 2, at least 8 for an interface record
and at least 4 for an endpoint record, `descriptor_complete_cb` of
`fastboot_rebooter.c` returns and loads no byte at an offset at or past the
received length; so does the callback of `fastboot_rebooter.old.c` when in
addition at least 4 bytes were received and the header's total length is the
received length.  No variant has a truncation failure. -/
theorem C3_reads_in_bounds_on_well_formed (hs : HostStack) (xfer : tuh_xfer_t)
    (hwf : tilesWith (fieldsFit xfer.buffer) xfer.buffer xfer.actual_len xfer.actual_len 0
      = true)
    (fuel : Nat) (hfuel : xfer.actual_len < fuel) :
    (∃ evs, descriptor_complete_cb hs fuel xfer = some evs
        ∧ ∀ off ∈ readOffsets evs, off < xfer.actual_len)
      ∧ (4 ≤ xfer.actual_len → wTotalLength xfer.buffer = xfer.actual_len →
          ∃ evs, descriptor_complete_cb_old hs fuel xfer = some evs
            ∧ ∀ off ∈ readOffsets evs, off < xfer.actual_len) := by
  constructor
  · obtain ⟨⟨sevs, exit⟩, hrun, hreads⟩ :=
      scanLoop_reads_in_bounds hs xfer.buffer xfer.actual_len xfer.daddr xfer.actual_len 0
        hwf fuel hfuel
    have hdump : ∀ off ∈ readOffsets (dumpDescriptor xfer.actual_len ++ sevs),
        off < xfer.actual_len := by
      intro off hoff
      rw [readOffsets_append, List.mem_append] at hoff
      rcases hoff with hoff | hoff
      · exact readOffsets_dumpDescriptor hoff
      · exact hreads off hoff
    unfold descriptor_complete_cb
    rw [hrun]
    cases exit with
    | ret => exact ⟨_, rfl, hdump⟩
    | done ep =>
      by_cases hep : ep ≠ 0
      · refine ⟨_, if_pos hep, ?_⟩
        intro off hoff
        rw [readOffsets_append, readOffsets_append, readOffsets_send_fastboot_reboot,
          List.mem_append, List.mem_append] at hoff
        rcases hoff with (hoff | hoff) | hoff
        · exact hdump off hoff
        · simp [readOffsets] at hoff
        · exact absurd hoff (List.not_mem_nil _)
      · refine ⟨_, if_neg hep, ?_⟩
        intro off hoff
        rw [readOffsets_append, List.mem_append] at hoff
        rcases hoff with hoff | hoff
        · exact hdump off hoff
        · simp [readOffsets] at hoff
  · intro h4 htotal
    unfold descriptor_complete_cb_old
    by_cases hres : xfer.result = XFER_RESULT_SUCCESS
    · rw [if_pos hres, htotal]
      obtain ⟨⟨sevs, ep⟩, hrun, hreads⟩ :=
        scanLoop_old_reads_in_bounds xfer.buffer xfer.actual_len xfer.actual_len 0 hwf fuel
          hfuel
      rw [hrun]
      have hhead : ∀ off ∈ readOffsets ([Event.read 2, Event.read 3] ++ sevs),
          off < xfer.actual_len := by
        intro off hoff
        rw [readOffsets_append, List.mem_append] at hoff
        rcases hoff with hoff | hoff
        · simp [readOffsets] at hoff
          omega
        · exact hreads off hoff
      by_cases hep : ep ≠ 0
      · refine ⟨_, if_pos hep, ?_⟩
        intro off hoff
        rw [readOffsets_append, List.mem_append] at hoff
        rcases hoff with hoff | hoff
        · exact hhead off hoff
        · by_cases hx : hs.tuh_edpt_xfer (reboot_xfer_old xfer.daddr ep) = true <;>
            simp [send_fastboot_reboot_old, hx, readOffsets, set_led_fail] at hoff
      · refine ⟨_, if_neg hep, ?_⟩
        intro off hoff
        rw [readOffsets_append, readOffsets_append, List.mem_append, List.mem_append] at hoff
        rcases hoff with (hoff | hoff) | hoff
        · exact hhead off hoff
        · simp [readOffsets] at hoff
        · simp [readOffsets, set_led_error] at hoff
    · rw [if_neg hres]
      refine ⟨_, rfl, ?_⟩
      intro off hoff
      simp [readOffsets, set_led_error] at hoff

set_option maxRecDepth 100000 in
/-- C3, amended, at a concrete input: a configuration of 25 bytes with a
header, an interface record and a bulk OUT endpoint record. -/
theorem C3_reads_in_bounds_on_well_formed_witness :
    tilesWith (fieldsFit (descriptorXfer 1 XFER_RESULT_SUCCESS bulkOutConfig).buffer)
        (descriptorXfer 1 XFER_RESULT_SUCCESS bulkOutConfig).buffer 25 25 0 = true
      ∧ (∃ evs, descriptor_complete_cb hostAccepting 26
            (descriptorXfer 1 XFER_RESULT_SUCCESS bulkOutConfig) = some evs
          ∧ ∀ off ∈ readOffsets evs, off < 25)
      ∧ (∃ evs, descriptor_complete_cb_old hostAccepting 26
            (descriptorXfer 1 XFER_RESULT_SUCCESS bulkOutConfig) = some evs
          ∧ ∀ off ∈ readOffsets evs, off < 25) :=
  have h := C3_reads_in_bounds_on_well_formed hostAccepting
    (descriptorXfer 1 XFER_RESULT_SUCCESS bulkOutConfig) (by decide) 26 (by decide)
  ⟨by decide, h.1, h.2 (by decide) (by decide)⟩

set_option maxRecDepth 100000 in
/-- C9, as stated, fails: on a successful completion over a well-formed
configuration of 25 bytes whose header declares 25, with a bulk OUT endpoint
0x01 and the endpoint open succeeding, the two variants submit transfers that
differ: the old variant's buffer length is 8, the new variant's is 7.  On such
a configuration whose only endpoint is an interrupt OUT endpoint, the old
variant submits nothing and the new variant submits a command. -/
theorem C9_counterexample_buffer_lengths_differ :
    wellFormed bulkOutConfig 25 = true
      ∧ wTotalLength bulkOutConfig = 25
      ∧ (descriptor_complete_cb_old hostAccepting 26
            (descriptorXfer 1 XFER_RESULT_SUCCESS bulkOutConfig)).map
          (fun evs => (submitted evs).map (fun x => (x.daddr, x.ep_addr, x.buflen)))
          = some [(1, 1, 8)]
      ∧ (descriptor_complete_cb hostAccepting 26
            (descriptorXfer 1 XFER_RESULT_SUCCESS bulkOutConfig)).map
          (fun evs => (submitted evs).map (fun x => (x.daddr, x.ep_addr, x.buflen)))
          = some [(1, 1, 7)]
      ∧ (descriptor_complete_cb_old hostAccepting 26
            (descriptorXfer 1 XFER_RESULT_SUCCESS bulkOutConfig)).map submitted
          ≠ (descriptor_complete_cb hostAccepting 26
            (descriptorXfer 1 XFER_RESULT_SUCCESS bulkOutConfig)).map submitted
      ∧ wellFormed interruptOutConfig 25 = true
      ∧ wTotalLength interruptOutConfig = 25
      ∧ (descriptor_complete_cb_old hostAccepting 26
            (descriptorXfer 1 XFER_RESULT_SUCCESS interruptOutConfig)).map submitted
          = some []
      ∧ (descriptor_complete_cb hostAccepting 26
            (descriptorXfer 1 XFER_RESULT_SUCCESS interruptOutConfig)).map submitted
          = some [reboot_xfer 1 1] := by
  decide

/-- C9, amended: on a successful completion over a buffer whose records tile
the received length exactly, each with a declared length of at least 2 and
none an interrupt OUT endpoint record, whose header declares the received
length, and with every endpoint open succeeding, both variants return and
submit the same command up to the buffer length, or both submit none: same
device address, same endpoint address, same buffer bytes; the buffer length
is 8 in the old variant and 7 in the new one. -/
theorem C9_variants_agree_up_to_buflen (hs : HostStack) (xfer : tuh_xfer_t)
    (hres : xfer.result = XFER_RESULT_SUCCESS)
    (hwf : tilesWith (fun c => !isInterruptOutRecord xfer.buffer c) xfer.buffer
      xfer.actual_len xfer.actual_len 0 = true)
    (htotal : wTotalLength xfer.buffer = xfer.actual_len)
    (hopen : ∀ c, hs.tuh_edpt_open xfer.daddr c = true)
    (fuel : Nat) (hfuel : xfer.actual_len < fuel) :
    ∃ evo evn, descriptor_complete_cb_old hs fuel xfer = some evo
      ∧ descriptor_complete_cb hs fuel xfer = some evn
      ∧ (submitted evo).map withoutBuflen = (submitted evn).map withoutBuflen
      ∧ (submitted evo).length = (submitted evn).length
      ∧ (∀ y ∈ submitted evo, y.buflen = 8)
      ∧ (∀ y ∈ submitted evn, y.buflen = 7) := by
  obtain ⟨evo, evn, ep, hro, hrn, hso, hsn⟩ :=
    scanLoops_agree hs xfer.buffer xfer.actual_len xfer.daddr hopen xfer.actual_len 0 hwf
      fuel hfuel
  unfold descriptor_complete_cb_old descriptor_complete_cb
  rw [if_pos hres, htotal, hro, hrn]
  by_cases hep : ep ≠ 0
  · refine ⟨_, _, if_pos hep, if_pos hep, ?_⟩
    simp only [submitted_append, submitted_dumpDescriptor, hso, hsn,
      submitted_send_fastboot_reboot, submitted_send_fastboot_reboot_old]
    refine ⟨rfl, rfl, ?_, ?_⟩
    · intro y hy
      simp [submitted] at hy
      subst hy
      rfl
    · intro y hy
      simp [submitted] at hy
      subst hy
      rfl
  · refine ⟨_, _, if_neg hep, if_neg hep, ?_⟩
    simp only [submitted_append, submitted_dumpDescriptor, hso, hsn]
    refine ⟨rfl, rfl, ?_, ?_⟩
    · intro y hy
      simp [submitted, set_led_error] at hy
    · intro y hy
      simp [submitted] at hy

set_option maxRecDepth 100000 in
/-- C9, amended, at a concrete input: a configuration of 25 bytes with a
header, an interface record and a bulk OUT endpoint record 0x01. -/
theorem C9_variants_agree_up_to_buflen_witness :
    tilesWith
        (fun c => !isInterruptOutRecord
          (descriptorXfer 1 XFER_RESULT_SUCCESS bulkOutConfig).buffer c)
        (descriptorXfer 1 XFER_RESULT_SUCCESS bulkOutConfig).buffer 25 25 0 = true
      ∧ wTotalLength (descriptorXfer 1 XFER_RESULT_SUCCESS bulkOutConfig).buffer = 25
      ∧ ∃ evo evn,
          descriptor_complete_cb_old hostAccepting 26
              (descriptorXfer 1 XFER_RESULT_SUCCESS bulkOutConfig) = some evo
            ∧ descriptor_complete_cb hostAccepting 26
              (descriptorXfer 1 XFER_RESULT_SUCCESS bulkOutConfig) = some evn
            ∧ (submitted evo).map withoutBuflen = (submitted evn).map withoutBuflen
            ∧ (submitted evo).length = (submitted evn).length
            ∧ (∀ y ∈ submitted evo, y.buflen = 8)
            ∧ (∀ y ∈ submitted evn, y.buflen = 7) :=
  ⟨by decide, by decide,
    C9_variants_agree_up_to_buflen hostAccepting
      (descriptorXfer 1 XFER_RESULT_SUCCESS bulkOutConfig) rfl (by decide) (by decide)
      (fun _ => rfl) 26 (by decide)⟩

end FastbootRebooter
